import Mathlib

/-!
Shallow embedding of the 6502-family CPU core in `src/cpu.rs` of the
`nes` repository: the status register (bitflags `Status`), the register
file, the instruction decoder, the execution engine and the
fetch-decode-execute cycle, together with theorems settling the spec
claims about them.

Machine integers are modelled as `Nat` with explicit `% 256` (u8) and
`% 65536` (u16) where the Rust code wraps.  Fallible execution (`panic!`,
`todo!`) is modelled with `Except`.
-/

namespace Nes

/-- The eight condition-flag bits of the 6502 status register, matching
the `bitflags! Status` declaration in cpu.rs (C, Z, I, D, B, U, V, N). -/
structure Status where
  c : Bool
  z : Bool
  i : Bool
  d : Bool
  b : Bool
  u : Bool
  v : Bool
  n : Bool
deriving Repr, DecidableEq

/-- Names of the single-bit flag constants of `Status`. -/
inductive Flag
  | C | Z | I | D | B | U | V | N
deriving Repr, DecidableEq

/-- The all-clear status byte (bitflags value 0). -/
def Status.empty : Status :=
  ⟨false, false, false, false, false, false, false, false⟩

/-- The `Status::U` (Unused) flag constant: only bit 5 set. -/
def Status.unusedFlag : Status :=
  { Status.empty with u := true }

/-- The `Status::I` (Interrupt-disable) flag constant: only bit 2 set. -/
def Status.interruptFlag : Status :=
  { Status.empty with i := true }

/-- Bitwise AND of two status bytes (the `&` used in `CPU::new`). -/
def Status.and (a b : Status) : Status :=
  ⟨a.c && b.c, a.z && b.z, a.i && b.i, a.d && b.d,
   a.b && b.b, a.u && b.u, a.v && b.v, a.n && b.n⟩

/-- `Status::set(flag, value)`: set or clear exactly the named flag bit. -/
def Status.set (s : Status) (f : Flag) (val : Bool) : Status :=
  match f with
  | .C => { s with c := val }
  | .Z => { s with z := val }
  | .I => { s with i := val }
  | .D => { s with d := val }
  | .B => { s with b := val }
  | .U => { s with u := val }
  | .V => { s with v := val }
  | .N => { s with n := val }

/-- `Status::contains(flag)`: query the named flag bit. -/
def Status.containsFlag (s : Status) (f : Flag) : Bool :=
  match f with
  | .C => s.c
  | .Z => s.z
  | .I => s.i
  | .D => s.d
  | .B => s.b
  | .U => s.u
  | .V => s.v
  | .N => s.n

/-- `Status::set_zn_flags(val)`: Z := (val == 0), N := (val & 0x80 == 0x80). -/
def Status.set_zn_flags (s : Status) (val : Nat) : Status :=
  (s.set .Z (val == 0)).set .N (val &&& 0x80 == 0x80)

/-- Modelled from the spec: the `Memory` collaborator (`crate::memory::Memory`,
whose source file is not part of src/).  Per §4.2/§6 it is fixed-capacity
byte-addressable storage: `read_u8` returns the byte stored at an address,
`write_u8` overwrites the byte at an address, a fresh instance is zero-filled,
and `with_program` pre-loads a byte sequence into the low addresses with the
rest zero-filled.  Addresses map to bytes, so the model is a function from
addresses to byte values. -/
def Memory : Type := Nat → Nat

/-- Modelled from the spec: `Memory::read_u8(addr)` returns the byte at `addr`. -/
def Memory.read_u8 (m : Memory) (addr : Nat) : Nat := m addr

/-- Modelled from the spec: `Memory::write_u8(addr, val)` overwrites the byte
at `addr`, leaving every other address unchanged. -/
def Memory.write_u8 (m : Memory) (addr val : Nat) : Memory :=
  fun a => if a = addr then val else m a

/-- Modelled from the spec: `Memory::new()` is zero-filled storage. -/
def Memory.new : Memory := fun _ => 0

/-- Modelled from the spec: `Memory::with_program(bytes)` pre-loads the byte
sequence into the low addresses, the rest zero-filled. -/
def Memory.with_program (bytes : List Nat) : Memory :=
  fun a => (bytes.getD a 0)

/-- The decoded instruction set of cpu.rs (`enum Instruction`); operand-carrying
variants hold the already-fetched zero-page address, immediate byte or
relative-offset byte. -/
inductive Instruction
  | ADC (addr : Nat)
  | AND (addr : Nat)
  | ASL (addr : Nat)
  | BRK
  | BCC (off : Nat)
  | CLC
  | CLD
  | CLI
  | CLV
  | DEX
  | DEY
  | INC (addr : Nat)
  | INX
  | INY
  | LDA (data : Nat)
  | LDX (data : Nat)
  | LDY (data : Nat)
  | NOP
  | SEC
  | SED
  | SEI
  | STA (addr : Nat)
  | TAX
  | TAY
  | TXA
  | TYA
  | Illegal (opcode : Nat)
deriving Repr, DecidableEq

/-- Fatal stops of the execution engine: the `todo!("interrupts")` of BRK and
the `panic!("illegal opcode: ...")` of `Illegal`, the latter carrying the
offending opcode byte exactly as the panic message does. -/
inductive ExecError
  | brkUnimplemented
  | illegalOpcode (opcode : Nat)
deriving Repr, DecidableEq

/-- The CPU aggregate of cpu.rs: register file, status register, working RAM
and ROM. -/
structure CPU where
  acc : Nat
  x : Nat
  y : Nat
  sr : Status
  sp : Nat
  pc : Nat
  wram : Memory
  rom : Memory

/-- `CPU::new(rom)`: zeroed registers, `sp = 0xFD`, `pc = 0`, fresh zeroed
working RAM, and `sr = Status::U & Status::I` (a bitwise AND). -/
def CPU.new (rom : Memory) : CPU :=
  { acc := 0
    x := 0
    y := 0
    sr := Status.unusedFlag.and Status.interruptFlag
    sp := 0xFD
    pc := 0
    wram := Memory.new
    rom := rom }

/-- `CPU::fetch`: read one byte from ROM at `pc`, then advance `pc` by one
(16-bit program counter). -/
def CPU.fetch (cpu : CPU) : Nat × CPU :=
  (cpu.rom.read_u8 cpu.pc, { cpu with pc := (cpu.pc + 1) % 65536 })

/-- `CPU::decode(opcode)`: the fixed opcode table.  Opcodes whose instruction
carries an operand fetch the next program byte (advancing `pc`); unmapped
bytes decode to `Illegal` carrying the raw byte. -/
def CPU.decode (cpu : CPU) (opcode : Nat) : Instruction × CPU :=
  match opcode with
  | 0x00 => (.BRK, cpu)
  | 0x06 => let p := cpu.fetch; (.ASL p.1, p.2)
  | 0x18 => (.CLC, cpu)
  | 0x25 => let p := cpu.fetch; (.AND p.1, p.2)
  | 0x38 => (.SEC, cpu)
  | 0x58 => (.CLI, cpu)
  | 0x65 => let p := cpu.fetch; (.ADC p.1, p.2)
  | 0x78 => (.SEI, cpu)
  | 0x85 => let p := cpu.fetch; (.STA p.1, p.2)
  | 0x88 => (.DEY, cpu)
  | 0x8A => (.TXA, cpu)
  | 0x90 => let p := cpu.fetch; (.BCC p.1, p.2)
  | 0x98 => (.TYA, cpu)
  | 0xA4 => let p := cpu.fetch; (.LDY p.1, p.2)
  | 0xA6 => let p := cpu.fetch; (.LDX p.1, p.2)
  | 0xA8 => (.TAY, cpu)
  | 0xA9 => let p := cpu.fetch; (.LDA p.1, p.2)
  | 0xAA => (.TAX, cpu)
  | 0xB8 => (.CLV, cpu)
  | 0xC8 => (.INY, cpu)
  | 0xCA => (.DEX, cpu)
  | 0xD8 => (.CLD, cpu)
  | 0xE6 => let p := cpu.fetch; (.INC p.1, p.2)
  | 0xE8 => (.INX, cpu)
  | 0xEA => (.NOP, cpu)
  | 0xF8 => (.SED, cpu)
  | _ => (.Illegal opcode, cpu)

/-- `CPU::execute(inst)`: apply the instruction's full effect on registers,
flags and memory.  u8 arithmetic wraps modulo 256; the 16-bit program counter
wraps modulo 65536; BRK (`todo!`) and `Illegal` (`panic!`) are fatal. -/
def CPU.execute (cpu : CPU) (inst : Instruction) : Except ExecError CPU :=
  match inst with
  | .BRK => .error .brkUnimplemented
  | .ASL addr =>
      let data := cpu.wram.read_u8 addr
      let sr1 := cpu.sr.set .C (decide (0 < (data >>> 7) &&& 1))
      let x := (data <<< 1) % 256
      let sr2 := sr1.set_zn_flags x
      .ok { cpu with sr := sr2, wram := cpu.wram.write_u8 addr x }
  | .AND addr =>
      let data := cpu.wram.read_u8 addr
      let acc := cpu.acc &&& data
      .ok { cpu with acc := acc, sr := cpu.sr.set_zn_flags acc }
  | .ADC addr =>
      let data := cpu.wram.read_u8 addr
      let x := (cpu.acc + data) % 256
      let o := decide (256 ≤ cpu.acc + data)
      .ok { cpu with acc := x, sr := (cpu.sr.set_zn_flags x).set .C o }
  | .CLC => .ok { cpu with sr := cpu.sr.set .C false }
  | .CLD => .ok { cpu with sr := cpu.sr.set .D false }
  | .CLI => .ok { cpu with sr := cpu.sr.set .I false }
  | .CLV => .ok { cpu with sr := cpu.sr.set .V false }
  | .DEX =>
      let x := (cpu.x + 255) % 256
      .ok { cpu with x := x, sr := cpu.sr.set_zn_flags x }
  | .DEY =>
      let y := (cpu.y + 255) % 256
      .ok { cpu with y := y, sr := cpu.sr.set_zn_flags y }
  | .LDA data =>
      .ok { cpu with acc := data, sr := cpu.sr.set_zn_flags data }
  | .SEC => .ok { cpu with sr := cpu.sr.set .C true }
  | .SED => .ok { cpu with sr := cpu.sr.set .D true }
  | .SEI => .ok { cpu with sr := cpu.sr.set .I true }
  | .STA addr =>
      .ok { cpu with wram := cpu.wram.write_u8 addr cpu.acc }
  | .BCC off =>
      if cpu.sr.containsFlag .C then
        .ok { cpu with pc := (cpu.pc + off) % 65536 }
      else
        .ok cpu
  | .INC addr =>
      let data := cpu.wram.read_u8 addr
      let x := (data + 1) % 256
      .ok { cpu with wram := cpu.wram.write_u8 addr x, sr := cpu.sr.set_zn_flags x }
  | .LDX data =>
      .ok { cpu with x := data, sr := cpu.sr.set_zn_flags data }
  | .LDY data =>
      .ok { cpu with y := data, sr := cpu.sr.set_zn_flags data }
  | .NOP => .ok cpu
  | .INX =>
      let x := (cpu.x + 1) % 256
      .ok { cpu with x := x, sr := cpu.sr.set_zn_flags x }
  | .INY =>
      let y := (cpu.y + 1) % 256
      .ok { cpu with y := y, sr := cpu.sr.set_zn_flags y }
  | .TAX =>
      .ok { cpu with x := cpu.acc, sr := cpu.sr.set_zn_flags cpu.acc }
  | .TAY =>
      .ok { cpu with y := cpu.acc, sr := cpu.sr.set_zn_flags cpu.acc }
  | .TXA =>
      .ok { cpu with acc := cpu.x, sr := cpu.sr.set_zn_flags cpu.x }
  | .TYA =>
      .ok { cpu with acc := cpu.y, sr := cpu.sr.set_zn_flags cpu.y }
  | .Illegal opcode => .error (.illegalOpcode opcode)

/-- `CPU::tick()`: one fetch, one decode (which may fetch an operand byte),
one execute. -/
def CPU.tick (cpu : CPU) : Except ExecError CPU :=
  let p := cpu.fetch
  let q := p.2.decode p.1
  q.2.execute q.1

/-- `n` consecutive `tick()` calls, stopping at the first fatal error. -/
def CPU.tickN (cpu : CPU) : Nat → Except ExecError CPU
  | 0 => .ok cpu
  | n + 1 =>
      match cpu.tick with
      | .ok cpu' => cpu'.tickN n
      | .error e => .error e

/-- Number of program-stream bytes the opcode table of `CPU::decode` declares
for an opcode byte: 2 for the opcodes whose table entry fetches one
zero-page / immediate / relative operand byte, 1 for every other byte. -/
def opLen (opcode : Nat) : Nat :=
  match opcode with
  | 0x06 | 0x25 | 0x65 | 0x85 | 0x90 | 0xA4 | 0xA6 | 0xA9 | 0xE6 => 2
  | _ => 1

/-- Whether an opcode byte is mapped by the opcode table of `CPU::decode`
(does not fall through to `Illegal`). -/
def isMapped (opcode : Nat) : Bool :=
  match opcode with
  | 0x00 | 0x06 | 0x18 | 0x25 | 0x38 | 0x58 | 0x65 | 0x78 | 0x85 | 0x88
  | 0x8A | 0x90 | 0x98 | 0xA4 | 0xA6 | 0xA8 | 0xA9 | 0xAA | 0xB8 | 0xC8
  | 0xCA | 0xD8 | 0xE6 | 0xE8 | 0xEA | 0xF8 => true
  | _ => false

/-- Reading of claim C2's words (refinement target, not from the source):
the branch target when the offset byte is interpreted as a SIGNED 8-bit
relative offset, so a byte `≥ 0x80` moves the program counter backward. -/
def bccSignedTarget (pc off : Nat) : Nat :=
  if off < 128 then (pc + off) % 65536 else (pc + off + 65536 - 256) % 65536

/-- A CPU state with Carry set and `pc = 2`, as after fetching and decoding a
`BCC` at address 0 with Carry set. -/
def bccCpu : CPU :=
  { CPU.new Memory.new with pc := 2, sr := Status.empty.set .C true }

/-- The state of `test_0x65_adc`: program `[0x65, 0x20]`, `wram[0x20] = 0x40`,
`acc = 0x04`. -/
def adcCpu1 : CPU :=
  { CPU.new (Memory.with_program [0x65, 0x20]) with
      acc := 0x04, wram := Memory.new.write_u8 0x20 0x40 }

/-- The state of `test_0x65_adc_carry_flag` (with `m = 0x01`): program
`[0x65, 0x20]`, `wram[0x20] = 0x01`, `acc = 0xFF`. -/
def adcCpu2 : CPU :=
  { CPU.new (Memory.with_program [0x65, 0x20]) with
      acc := 0xFF, wram := Memory.new.write_u8 0x20 0x01 }

/-- The result of executing `ADC 0x20` on `adcCpu1`. -/
def adcCpu1After : CPU := { adcCpu1 with acc := 0x44, sr := Status.empty }

/-- The state of `test_0x06_asl_carry_flag`: program `[0x06, 0x20]`,
`wram[0x20] = 0x80`. -/
def aslCpu1 : CPU :=
  { CPU.new (Memory.with_program [0x06, 0x20]) with
      wram := Memory.new.write_u8 0x20 0x80 }

/-- The state of `test_0x06_asl_negative_flag`: program `[0x06, 0x20]`,
`wram[0x20] = 0x40`. -/
def aslCpu2 : CPU :=
  { CPU.new (Memory.with_program [0x06, 0x20]) with
      wram := Memory.new.write_u8 0x20 0x40 }

/-- The result of executing `ASL 0x20` on `aslCpu1`. -/
def aslCpu1After : CPU :=
  { aslCpu1 with wram := (Memory.new.write_u8 0x20 0x80).write_u8 0x20 0,
                 sr := { Status.empty with c := true, z := true } }

/-- The state of `test_0xca_dex_underflow`: program `[0xCA]`, `x = 0`. -/
def dexCpu : CPU := CPU.new (Memory.with_program [0xCA])

/-- The state of `test_0xe8_inx_zero_flag`: program `[0xE8]`, `x = 0xFF`. -/
def inxCpu : CPU := { CPU.new (Memory.with_program [0xE8]) with x := 0xFF }

/-- A ROM whose every byte is the NOP opcode. -/
def nopRom : Memory := fun _ => 0xEA

/-! ### Helper lemmas shared by the claim theorems -/

/-- The N-bit test of `set_zn_flags` (`val & 0x80 == 0x80`) agrees with
testing bit 7 of the value. -/
theorem and_x80_beq_eq_testBit (val : Nat) :
    (val &&& 0x80 == 0x80) = val.testBit 7 := by
  have h := Nat.and_two_pow val 7
  norm_num at h
  cases hb : val.testBit 7 <;> rw [hb] at h <;> simp [h]

/-- The carry test of ASL (`(data >> 7) & 1 > 0`) agrees with testing bit 7
of the original byte. -/
theorem shiftRight7_and1_pos_eq_testBit (m : Nat) :
    decide (0 < (m >>> 7) &&& 1) = m.testBit 7 := by
  rw [Nat.and_one_is_mod, Nat.testBit_to_div_mod, Nat.shiftRight_eq_div_pow]
  rcases Nat.mod_two_eq_zero_or_one (m / 2 ^ 7) with h | h <;> rw [h] <;> rfl

/-- Decoding advances the program counter by one exactly when the opcode's
table entry fetches an operand byte (`opLen = 2`), else leaves it alone. -/
theorem decode_pc_advance (cpu : CPU) (opcode : Nat) :
    ((cpu.decode opcode).2).pc =
      if opLen opcode = 2 then (cpu.pc + 1) % 65536 else cpu.pc := by
  unfold CPU.decode
  split <;> simp [opLen, CPU.fetch]

/-- Decoding never changes the ROM. -/
theorem decode_rom_eq (cpu : CPU) (opcode : Nat) :
    ((cpu.decode opcode).2).rom = cpu.rom := by
  unfold CPU.decode
  split <;> rfl

/-- Execution never changes the ROM: the only memory writes of the execution
engine target the working RAM. -/
theorem execute_rom_eq (inst : Instruction) (cpu cpu' : CPU)
    (h : cpu.execute inst = .ok cpu') : cpu'.rom = cpu.rom := by
  cases inst <;> simp only [CPU.execute] at h <;>
    first
      | (injection h with h; rw [← h])
      | (split at h <;> injection h with h <;> rw [← h])
      | exact Except.noConfusion h

/-- One full tick never changes the ROM. -/
theorem tick_rom_eq (cpu cpu' : CPU) (h : cpu.tick = .ok cpu') :
    cpu'.rom = cpu.rom := by
  simp only [CPU.tick] at h
  rw [execute_rom_eq _ _ _ h, decode_rom_eq]
  rfl

/-! ### Claim theorems -/

/-- C1: after `CPU::new` with any ROM the register file is exactly
{acc = 0, x = 0, y = 0, sp = 0xFD, pc = 0}; the status register, however, is
the bitwise AND `Status::U & Status::I` of two disjoint single-bit constants,
which is the empty status: neither the Unused bit nor the Interrupt-disable
bit is set, contradicting the claimed initial state `U | I`. -/
theorem C1_new_initial_state (rom : Memory) :
    (CPU.new rom).acc = 0 ∧ (CPU.new rom).x = 0 ∧ (CPU.new rom).y = 0 ∧
    (CPU.new rom).sp = 0xFD ∧ (CPU.new rom).pc = 0 ∧
    (CPU.new rom).sr = Status.empty ∧
    (CPU.new rom).sr.u = false ∧ (CPU.new rom).sr.i = false :=
  ⟨rfl, rfl, rfl, rfl, rfl, rfl, rfl, rfl⟩

/-- C3: for every status value and every result value, `set_zn_flags` leaves
the Zero flag true iff the value equals 0 and the Negative flag true iff
bit 7 of the value is set, and changes no flag bit other than Z and N. -/
theorem C3_set_zn_flags (s : Status) (val : Nat) :
    ((s.set_zn_flags val).z = true ↔ val = 0) ∧
    ((s.set_zn_flags val).n = true ↔ val.testBit 7 = true) ∧
    (s.set_zn_flags val).c = s.c ∧
    (s.set_zn_flags val).i = s.i ∧
    (s.set_zn_flags val).d = s.d ∧
    (s.set_zn_flags val).b = s.b ∧
    (s.set_zn_flags val).u = s.u ∧
    (s.set_zn_flags val).v = s.v := by
  refine ⟨?_, ?_, rfl, rfl, rfl, rfl, rfl, rfl⟩
  · simp [Status.set_zn_flags, Status.set]
  · simp [Status.set_zn_flags, Status.set, and_x80_beq_eq_testBit]

/-- C8: each of CLC/CLD/CLI/CLV clears exactly the named flag and each of
SEC/SED/SEI sets exactly the named flag; every other flag bit, every
register and both memories are left unchanged. -/
theorem C8_flag_instructions (cpu : CPU) :
    cpu.execute .CLC = .ok { cpu with sr := { cpu.sr with c := false } } ∧
    cpu.execute .CLD = .ok { cpu with sr := { cpu.sr with d := false } } ∧
    cpu.execute .CLI = .ok { cpu with sr := { cpu.sr with i := false } } ∧
    cpu.execute .CLV = .ok { cpu with sr := { cpu.sr with v := false } } ∧
    cpu.execute .SEC = .ok { cpu with sr := { cpu.sr with c := true } } ∧
    cpu.execute .SED = .ok { cpu with sr := { cpu.sr with d := true } } ∧
    cpu.execute .SEI = .ok { cpu with sr := { cpu.sr with i := true } } :=
  ⟨rfl, rfl, rfl, rfl, rfl, rfl, rfl⟩

/-- C7: INX/INY/DEX/DEY change the named register by +1 / -1 modulo 256 and
update Z/N from the new value (everything else per the record updates shown);
in particular decrementing X from 0x00 yields 0xFF with Negative set and Zero
clear, and incrementing X from 0xFF yields 0x00 with Zero set and Negative
clear. -/
theorem C7_inc_dec (cpu : CPU) :
    (cpu.execute .INX = .ok { cpu with x := (cpu.x + 1) % 256, sr := cpu.sr.set_zn_flags ((cpu.x + 1) % 256) }) ∧
    (cpu.execute .INY = .ok { cpu with y := (cpu.y + 1) % 256, sr := cpu.sr.set_zn_flags ((cpu.y + 1) % 256) }) ∧
    (cpu.execute .DEX = .ok { cpu with x := (cpu.x + 255) % 256, sr := cpu.sr.set_zn_flags ((cpu.x + 255) % 256) }) ∧
    (cpu.execute .DEY = .ok { cpu with y := (cpu.y + 255) % 256, sr := cpu.sr.set_zn_flags ((cpu.y + 255) % 256) }) ∧
    (dexCpu.tick.map (fun c => (c.x, c.sr.n, c.sr.z)) = .ok (0xFF, true, false)) ∧
    (inxCpu.tick.map (fun c => (c.x, c.sr.z, c.sr.n)) = .ok (0x00, true, false)) :=
  ⟨rfl, rfl, rfl, rfl, rfl, rfl⟩

/-- C5: executing ADC on a zero-page address sets the accumulator to
`(a + m) mod 256`, sets Carry iff `a + m > 255`, sets Z/N from the 8-bit sum
and touches nothing else; in particular `0x04 + 0x40` gives `0x44` with no
flags set and `0xFF + 0x01` gives `0x00` with Carry set. -/
theorem C5_adc :
    (∀ (cpu cpu' : CPU) (addr : Nat), cpu.execute (.ADC addr) = .ok cpu' →
      cpu'.acc = (cpu.acc + cpu.wram.read_u8 addr) % 256 ∧
      (cpu'.sr.c = true ↔ 255 < cpu.acc + cpu.wram.read_u8 addr) ∧
      (cpu'.sr.z = true ↔ (cpu.acc + cpu.wram.read_u8 addr) % 256 = 0) ∧
      (cpu'.sr.n = true ↔ ((cpu.acc + cpu.wram.read_u8 addr) % 256).testBit 7 = true) ∧
      cpu'.sr.i = cpu.sr.i ∧ cpu'.sr.d = cpu.sr.d ∧ cpu'.sr.b = cpu.sr.b ∧
      cpu'.sr.u = cpu.sr.u ∧ cpu'.sr.v = cpu.sr.v ∧
      cpu'.x = cpu.x ∧ cpu'.y = cpu.y ∧ cpu'.sp = cpu.sp ∧
      cpu'.pc = cpu.pc ∧ cpu'.wram = cpu.wram ∧ cpu'.rom = cpu.rom) ∧
    (adcCpu1.tick.map (fun c => (c.acc, c.sr)) = .ok (0x44, Status.empty)) ∧
    (adcCpu2.tick.map (fun c => (c.acc, c.sr.c)) = .ok (0x00, true)) := by
  refine ⟨?_, rfl, rfl⟩
  intro cpu cpu' addr h
  simp only [CPU.execute, Except.ok.injEq] at h
  subst h
  refine ⟨rfl, ?_, ?_, ?_, rfl, rfl, rfl, rfl, rfl, rfl, rfl, rfl, rfl, rfl, rfl⟩
  · simp [Status.set, Status.set_zn_flags, Memory.read_u8]
    omega
  · simp [Status.set, Status.set_zn_flags, Memory.read_u8]
  · simp [Status.set, Status.set_zn_flags, Memory.read_u8, and_x80_beq_eq_testBit]

/-- C5 witness: the general ADC theorem applied at the concrete state of
`test_0x65_adc` (accumulator 0x04, memory byte 0x40 at address 0x20). -/
theorem C5_adc_witness :
    (adcCpu1.execute (.ADC 0x20) = .ok adcCpu1After) ∧
    adcCpu1After.acc = (adcCpu1.acc + adcCpu1.wram.read_u8 0x20) % 256 ∧
    (adcCpu1After.sr.c = true ↔ 255 < adcCpu1.acc + adcCpu1.wram.read_u8 0x20) := by
  have h : adcCpu1.execute (.ADC 0x20) = .ok adcCpu1After := rfl
  have hf := C5_adc.1 adcCpu1 adcCpu1After 0x20 h
  exact ⟨h, hf.1, hf.2.1⟩

/-- C6: executing ASL on a zero-page address writes `(m * 2) mod 256` back to
that address, sets Carry iff bit 7 of the original byte was set, sets Z/N from
the shifted result and touches nothing else; in particular `0x80` becomes
`0x00` with Carry and Zero set, and `0x40` becomes `0x80` with Carry clear
and Negative set. -/
theorem C6_asl :
    (∀ (cpu cpu' : CPU) (addr : Nat), cpu.execute (.ASL addr) = .ok cpu' →
      cpu'.wram = cpu.wram.write_u8 addr ((cpu.wram.read_u8 addr * 2) % 256) ∧
      (cpu'.sr.c = true ↔ (cpu.wram.read_u8 addr).testBit 7 = true) ∧
      (cpu'.sr.z = true ↔ (cpu.wram.read_u8 addr * 2) % 256 = 0) ∧
      (cpu'.sr.n = true ↔ ((cpu.wram.read_u8 addr * 2) % 256).testBit 7 = true) ∧
      cpu'.sr.i = cpu.sr.i ∧ cpu'.sr.d = cpu.sr.d ∧ cpu'.sr.b = cpu.sr.b ∧
      cpu'.sr.u = cpu.sr.u ∧ cpu'.sr.v = cpu.sr.v ∧
      cpu'.acc = cpu.acc ∧ cpu'.x = cpu.x ∧ cpu'.y = cpu.y ∧
      cpu'.sp = cpu.sp ∧ cpu'.pc = cpu.pc ∧ cpu'.rom = cpu.rom) ∧
    (aslCpu1.tick.map (fun c => (c.wram.read_u8 0x20, c.sr.c, c.sr.z)) = .ok (0x00, true, true)) ∧
    (aslCpu2.tick.map (fun c => (c.wram.read_u8 0x20, c.sr.c, c.sr.n)) = .ok (0x80, false, true)) := by
  refine ⟨?_, rfl, rfl⟩
  intro cpu cpu' addr h
  simp only [CPU.execute, Except.ok.injEq] at h
  subst h
  have hs : cpu.wram.read_u8 addr <<< 1 = cpu.wram.read_u8 addr * 2 := by
    rw [Nat.shiftLeft_eq]
  refine ⟨?_, ?_, ?_, ?_, rfl, rfl, rfl, rfl, rfl, rfl, rfl, rfl, rfl, rfl, rfl⟩
  · simp [hs]
  · show decide (0 < (cpu.wram.read_u8 addr >>> 7) &&& 1) = true ↔ (cpu.wram.read_u8 addr).testBit 7 = true
    rw [shiftRight7_and1_pos_eq_testBit]
  · simp [Status.set, Status.set_zn_flags, hs]
  · simp [Status.set, Status.set_zn_flags, hs, and_x80_beq_eq_testBit]

/-- C6 witness: the general ASL theorem applied at the concrete state of
`test_0x06_asl_carry_flag` (memory byte 0x80 at address 0x20). -/
theorem C6_asl_witness :
    (aslCpu1.execute (.ASL 0x20) = .ok aslCpu1After) ∧
    aslCpu1After.wram = aslCpu1.wram.write_u8 0x20 ((aslCpu1.wram.read_u8 0x20 * 2) % 256) ∧
    (aslCpu1After.sr.c = true ↔ (aslCpu1.wram.read_u8 0x20).testBit 7 = true) ∧
    (aslCpu1After.sr.z = true ↔ (aslCpu1.wram.read_u8 0x20 * 2) % 256 = 0) := by
  have h : aslCpu1.execute (.ASL 0x20) = .ok aslCpu1After := rfl
  have hf := C6_asl.1 aslCpu1 aslCpu1After 0x20 h
  exact ⟨h, hf.1, hf.2.1, hf.2.2.1⟩

/-- C2 counterexample: with Carry set, `pc = 2` and offset byte 0xFF, the code
sets `pc` to 0x0101 (the offset byte is zero-extended and added), while the
claim's signed reading demands `pc = 1` (backward by one). -/
theorem C2_counterexample :
    (bccCpu.execute (.BCC 0xFF)).map CPU.pc = .ok 0x0101 ∧
    bccSignedTarget 2 0xFF = 1 ∧ (0x0101 : Nat) ≠ 1 :=
  ⟨rfl, rfl, by decide⟩

/-- C2 (amended): executing BCC treats the offset byte as an UNSIGNED 8-bit
value zero-extended to 16 bits: when Carry is set the program counter becomes
`(pc + offset) mod 2^16` (an offset byte ≥ 0x80 still moves the program
counter forward); when Carry is clear the CPU state is unchanged. -/
theorem C2_bcc_zero_extends (cpu : CPU) (off : Nat) (_hoff : off < 256) :
    cpu.execute (.BCC off) =
      .ok (if cpu.sr.c = true then { cpu with pc := (cpu.pc + off) % 65536 } else cpu) := by
  cases h : cpu.sr.c <;> simp [CPU.execute, Status.containsFlag, h]

/-- C2 witness: the amended BCC theorem applied at Carry set, `pc = 2`,
offset byte 0xFF. -/
theorem C2_bcc_zero_extends_witness :
    (0xFF : Nat) < 256 ∧
    bccCpu.execute (.BCC 0xFF) =
      .ok (if bccCpu.sr.c = true then { bccCpu with pc := (bccCpu.pc + 0xFF) % 65536 } else bccCpu) :=
  ⟨by decide, C2_bcc_zero_extends bccCpu 0xFF (by decide)⟩

/-- C4: one tick consumes exactly the number of program-stream bytes the
opcode's table entry declares: after fetch and decode the program counter has
advanced by `opLen` of the fetched opcode byte (2 for a single
zero-page/immediate/relative operand, 1 otherwise); executing any instruction
other than BCC leaves the program counter unchanged, and so does BCC when the
Carry flag is clear. -/
theorem C4_bytes_consumed :
    (∀ cpu : CPU,
      (((cpu.fetch).2.decode (cpu.fetch).1).2).pc =
        (cpu.pc + opLen ((cpu.fetch).1)) % 65536) ∧
    (∀ (inst : Instruction) (cpu cpu' : CPU), cpu.execute inst = .ok cpu' →
      (∀ off, inst ≠ .BCC off) → cpu'.pc = cpu.pc) ∧
    (∀ (off : Nat) (cpu : CPU), cpu.sr.c = false →
      cpu.execute (.BCC off) = .ok cpu) := by
  refine ⟨?_, ?_, ?_⟩
  · intro cpu
    have hcases : opLen ((cpu.fetch).1) = 1 ∨ opLen ((cpu.fetch).1) = 2 := by
      unfold opLen; split <;> simp
    rw [decode_pc_advance]
    simp only [CPU.fetch] at hcases ⊢
    rcases hcases with h2 | h2 <;> rw [h2] <;> norm_num
  · intro inst cpu cpu' h hn
    cases inst <;> simp only [CPU.execute] at h <;>
      first
        | (injection h with h; rw [← h])
        | exact absurd rfl (hn _)
        | exact Except.noConfusion h
  · intro off cpu h
    simp [CPU.execute, Status.containsFlag, h]

/-- C4 witness: the execute part of the theorem applied to BCC with Carry
clear on the freshly constructed CPU. -/
theorem C4_bytes_consumed_witness :
    (CPU.new Memory.new).sr.c = false ∧
    (CPU.new Memory.new).execute (.BCC 5) = .ok (CPU.new Memory.new) :=
  ⟨rfl, C4_bytes_consumed.2.2 5 (CPU.new Memory.new) rfl⟩

/-- C9: every opcode byte outside the table decodes to `Illegal` carrying
that byte, and executing `Illegal` halts with a fatal error carrying exactly
the offending byte value; it never succeeds (so it is never treated as NOP,
whose execution succeeds unchanged). -/
theorem C9_illegal_opcode (opcode : Nat) (cpu : CPU)
    (h : isMapped opcode = false) :
    cpu.decode opcode = (.Illegal opcode, cpu) ∧
    cpu.execute (.Illegal opcode) = .error (.illegalOpcode opcode) ∧
    (∀ cpu' : CPU, cpu.execute (.Illegal opcode) ≠ .ok cpu') ∧
    cpu.execute .NOP = .ok cpu := by
  refine ⟨?_, rfl, fun cpu' hc => Except.noConfusion hc, rfl⟩
  unfold CPU.decode
  split <;> simp_all [isMapped]

/-- C9 witness: the unmapped byte 0xFF on the freshly constructed CPU. -/
theorem C9_illegal_opcode_witness :
    isMapped 0xFF = false ∧
    (CPU.new Memory.new).decode 0xFF = (.Illegal 0xFF, CPU.new Memory.new) ∧
    (CPU.new Memory.new).execute (.Illegal 0xFF) = .error (.illegalOpcode 0xFF) :=
  ⟨rfl, (C9_illegal_opcode 0xFF (CPU.new Memory.new) rfl).1,
    (C9_illegal_opcode 0xFF (CPU.new Memory.new) rfl).2.1⟩

/-- C10: execution never writes the ROM: every successful `execute` leaves
the ROM exactly as it was, and after any number of successful ticks from
construction the ROM contents equal the ROM passed to `CPU::new`. -/
theorem C10_rom_immutable :
    (∀ (inst : Instruction) (cpu cpu' : CPU),
      cpu.execute inst = .ok cpu' → cpu'.rom = cpu.rom) ∧
    (∀ (n : Nat) (rom : Memory) (cpu' : CPU),
      (CPU.new rom).tickN n = .ok cpu' → cpu'.rom = rom) := by
  constructor
  · exact execute_rom_eq
  · have hgen : ∀ (n : Nat) (cpu cpu' : CPU),
        cpu.tickN n = .ok cpu' → cpu'.rom = cpu.rom := by
      intro n
      induction n with
      | zero =>
          intro cpu cpu' h
          simp only [CPU.tickN] at h
          injection h with h
          rw [← h]
      | succ n ih =>
          intro cpu cpu' h
          simp only [CPU.tickN] at h
          cases htick : cpu.tick with
          | ok c1 =>
              rw [htick] at h
              rw [ih c1 cpu' h, tick_rom_eq cpu c1 htick]
          | error e =>
              rw [htick] at h
              exact Except.noConfusion h
    intro n rom cpu' h
    exact hgen n (CPU.new rom) cpu' h

/-- C10 witness: one tick of a NOP program leaves the ROM intact. -/
theorem C10_rom_immutable_witness :
    ((CPU.new nopRom).tickN 1 = .ok { CPU.new nopRom with pc := 1 }) ∧
    ({ CPU.new nopRom with pc := 1 } : CPU).rom = nopRom :=
  ⟨rfl, C10_rom_immutable.2 1 nopRom { CPU.new nopRom with pc := 1 } rfl⟩

end Nes
